import Mathlib

/-!
Verification of the real-time scribe pipeline in src/main.py.

The program is a Streamlit page whose live path is an injected browser
script: microphone audio is converted to 16-bit PCM in
processor.onaudioprocess and sent over a WebSocket; inbound turn events
are folded into a transcript accumulator by ws.onmessage; stopRecording
tears the session down; after the session three independent enrichment
calls populate a SessionResult and the analysis tab parses the sentiment
response, stripping markdown code fences.

Strings are modelled through their underlying character lists
(String.data); Python str.strip and JavaScript String.prototype.trim are
modelled as removal of leading and trailing ASCII whitespace.
-/

/-- ASCII whitespace, the characters relevant to str.strip / String.trim
for the strings this program handles. -/
def wsChar : Char → Bool
  | ' ' => true
  | '\t' => true
  | '\n' => true
  | '\r' => true
  | _ => false

/-- Remove the leading whitespace run. -/
def trimL (l : List Char) : List Char := l.dropWhile wsChar

/-- Remove the trailing whitespace run. -/
def trimR (l : List Char) : List Char := (l.reverse.dropWhile wsChar).reverse

/-- Remove whitespace from both ends (Python str.strip, JS trim). -/
def trim (l : List Char) : List Char := trimL (trimR l)

/-- String-level strip, used wherever the source calls .strip() / .trim(). -/
def strip (s : String) : String := String.mk (trim s.data)

/-- Does the list contain a newline (Python: "\n" in s). -/
def hasNL : List Char → Bool
  | [] => false
  | c :: cs => if c = '\n' then true else hasNL cs

/-- Everything after the first newline (Python: s.split("\n", 1)[1],
only ever called when a newline is present). -/
def afterNL : List Char → List Char
  | [] => []
  | c :: cs => if c = '\n' then cs else afterNL cs

/-- Python s.startswith on three backticks. -/
def startsWithTicks : List Char → Bool
  | '`' :: '`' :: '`' :: _ => true
  | _ => false

/-- Python s.endswith on three backticks. -/
def endsWithTicks (l : List Char) : Bool := startsWithTicks l.reverse

/-- Python s[:-3]. -/
def dropLast3 (l : List Char) : List Char := (l.reverse.drop 3).reverse

/-- Count of maximal non-whitespace runs; on trimmed non-empty text this
is the length of the JS text.trim().split on whitespace. -/
def countWordsAux : List Char → Bool → Nat
  | [], _ => 0
  | c :: cs, inWord =>
    if wsChar c then countWordsAux cs false
    else (if inWord then 0 else 1) + countWordsAux cs true

/-- Word count of a string, JS text.trim().split on whitespace length. -/
def wordCount (s : String) : Nat := countWordsAux s.data false

-- ### Bounded audio queue (spec section 4.2)

/-- Modelled from the spec: the Bounded Audio Queue of spec section 4.2.
The repository reimplements the pipeline in three near-duplicate
programs; the queue belongs to the variants that are not under src/
(src/main.py sends each chunk straight from processor.onaudioprocess).
Per the spec, push is non-blocking (here: a total function) and, at
capacity, evicts exactly one oldest element before inserting.  The queue
front is the oldest element. -/
def push {α : Type} (cap : Nat) (q : List α) (c : α) : List α :=
  if cap ≤ q.length then q.tail ++ [c] else q ++ [c]

/-- Modelled from the spec: a whole sequence of producer pushes. -/
def pushAll {α : Type} (cap : Nat) (q : List α) (cs : List α) : List α :=
  cs.foldl (push cap) q

-- ### Outbound PCM chunks (src/main.py lines 627-639)

/-- Buffer size requested from createScriptProcessor in src/main.py
line 628: the number of float samples delivered per onaudioprocess
callback. -/
def scriptProcessorBufferSize : Nat := 4096

/-- The canonical chunk size in samples as the spec words it
("canonical chunk = 800 samples / 1600 bytes"); stated from the spec for
comparison with the source. -/
def specCanonicalChunkSamples : Nat := 800

/-- processor.onaudioprocess (src/main.py lines 630-639): allocates an
Int16Array of the input length and fills it per sample, then sends the
buffer.  The float-to-int16 clamping is abstracted as a per-sample
conversion function, since the claims concern only the chunk length;
the one-output-sample-per-input-sample structure is the source's. -/
def onaudioprocessSend {α : Type} (conv : α → Int) (float32 : List α) :
    List Int :=
  float32.map conv

/-- Bytes of the transmitted buffer: two bytes per 16-bit sample. -/
def int16Bytes (chunk : List Int) : Nat := 2 * chunk.length

-- ### Turn accumulator (src/main.py lines 584-603, browser script)

/-- One finalized turn, as pushed by ws.onmessage:
transcripts.push with text and speaker fields. -/
structure Turn where
  text : String
  speaker : String
deriving DecidableEq

/-- The accumulator state of the browser script: the transcripts array,
the single pending-partial slot currentPartial, and totalWords. -/
structure AccState where
  transcripts : List Turn
  currentPartial : String
  totalWords : Nat
deriving DecidableEq

/-- Inbound WebSocket events by data.type; a Turn event carries
data.turn_is_formatted and data.transcript (absent transcript is the
empty string, from the JS "data.transcript || emptystring"). -/
inductive WsEvent where
  | turn (turn_is_formatted : Bool) (transcript : String)
  | termination
  | begin
deriving DecidableEq

/-- getSpeaker (src/main.py lines 527-530):
index % 2 === 0 ? "Doctor" : "Patient". -/
def getSpeaker (i : Nat) : String :=
  if i % 2 = 0 then "Doctor" else "Patient"

/-- ws.onmessage (src/main.py lines 584-603) restricted to its effect on
the accumulator state.  A formatted turn with non-empty trimmed text is
appended with the speaker taken from the current transcripts length and
the pending slot cleared; otherwise non-empty text replaces the pending
slot; otherwise nothing changes.  Termination and Begin events only
touch status display. -/
def onMessage (s : AccState) (e : WsEvent) : AccState :=
  match e with
  | .turn turn_is_formatted transcript =>
    let t := strip transcript
    if turn_is_formatted = true ∧ t ≠ "" then
      { transcripts := s.transcripts ++ [⟨t, getSpeaker s.transcripts.length⟩]
        currentPartial := ""
        totalWords := s.totalWords + wordCount t }
    else if t ≠ "" then
      { s with currentPartial := t }
    else s
  | .termination => s
  | .begin => s

/-- Folding a whole inbound event sequence through ws.onmessage. -/
def processEvents (s : AccState) (evs : List WsEvent) : AccState :=
  evs.foldl onMessage s

/-- The accumulator at session start (startRecording resets all three). -/
def initAcc : AccState := ⟨[], "", 0⟩

/-- buildTranscriptText (src/main.py lines 561-563): joins
speaker + ": " + text over the transcripts array only. -/
def buildTranscriptText (ts : List Turn) : String :=
  String.intercalate "\n\n" (ts.map (fun t => t.speaker ++ ": " ++ t.text))

-- ### Session teardown (src/main.py lines 655-724, browser script)

/-- The session-scoped state of the browser script: the media resources
(script processor node, media-stream source node, audio context, media
stream), the WebSocket handle (some true when readyState is OPEN,
some false when present but not open), the duration timer, the
accumulator, and the transcript export textarea value.  Status text and
button enabled/visibility flips are presentation and lie outside the
core state the spec scopes (spec section 1: the core renders no UI). -/
structure AppState where
  processorNode : Bool
  sourceNode : Bool
  audioContextOpen : Bool
  mediaStreamActive : Bool
  ws : Option Bool
  timerOn : Bool
  acc : AccState
  hiddenTranscript : String
deriving DecidableEq

/-- onEncounterComplete (src/main.py lines 699-709): writes the built
transcript text into the copyable textarea. -/
def onEncounterComplete (s : AppState) : AppState :=
  { s with hiddenTranscript := buildTranscriptText s.acc.transcripts }

/-- onEncounterStopped (src/main.py lines 689-697): exports the
transcript only when at least one turn was accumulated. -/
def onEncounterStopped (s : AppState) : AppState :=
  if s.acc.transcripts ≠ [] then onEncounterComplete s else s

/-- stopRecording (src/main.py lines 655-687): stops the timer,
disconnects and nulls the processor and source nodes, closes the audio
context, stops the media-stream tracks; then, when the socket is OPEN,
sends the Terminate message and closes it; finally onEncounterStopped
runs (in the source, after the 1.5 s grace timeout when a close was in
flight).  Each step is guarded, so absent resources are skipped. -/
def stopRecording (s : AppState) : AppState :=
  let s1 := { s with timerOn := false, processorNode := false,
                     sourceNode := false, audioContextOpen := false,
                     mediaStreamActive := false }
  let s2 := match s1.ws with
    | some true => { s1 with ws := none }
    | _ => s1
  onEncounterStopped s2

/-- The page state before any session: no resources, empty accumulator,
empty export textarea. -/
def initialState : AppState :=
  ⟨false, false, false, false, none, false, initAcc, ""⟩

-- ### Post-encounter enrichment (src/main.py lines 774-803)

/-- The three post-session result slots of st.session_state: soap_note,
redacted_transcript, sentiment_results.  Each is a string after the
processing block runs (success payload or error placeholder). -/
structure SessionResult where
  soap_note : String
  redacted_transcript : String
  sentiment_results : String
deriving DecidableEq

/-- The placeholder written on a SOAP-note failure (line 782). -/
def soapErrText (e : String) : String :=
  "Error generating SOAP note: " ++ e

/-- The placeholder written on a redaction failure (line 788). -/
def redactErrText (e : String) : String :=
  "Error redacting PII: " ++ e

/-- The placeholder written on a sentiment failure (lines 794-800):
json.dumps of the error record, braces escaped here as \x7b and \x7d. -/
def sentimentErrJson (e : String) : String :=
  "\x7b\"error\": \"" ++ e ++
    "\", \"turns\": [], \"patient_summary\": \"Error analyzing sentiment\"" ++
    ", \"overall_patient_sentiment\": \"UNKNOWN\"" ++
    ", \"overall_doctor_sentiment\": \"UNKNOWN\"\x7d"

/-- The post-encounter processing block (src/main.py lines 774-803):
three separate try blocks run in sequence, each catching its own
exception, so every slot is written regardless of the other calls.
Each collaborator call outcome is its slot input: ok carries the
response text, error the exception text. -/
def runEnrichment (soapRes redactRes sentRes : Except String String) :
    SessionResult :=
  { soap_note := match soapRes with
      | .ok t => t
      | .error e => soapErrText e
    redacted_transcript := match redactRes with
      | .ok t => t
      | .error e => redactErrText e
    sentiment_results := match sentRes with
      | .ok t => t
      | .error e => sentimentErrJson e }

-- ### Sentiment parsing in the analysis tab (src/main.py lines 871-952)

/-- The fence-stripping step of the analysis tab (lines 875-879): when
the stripped response starts with three backticks, cut everything up to
and including the first newline (or just the three backticks when no
newline exists), then cut a trailing three backticks when present. -/
def stripFencesL (l : List Char) : List Char :=
  if startsWithTicks l then
    let l1 := if hasNL l then afterNL l else l.drop 3
    if endsWithTicks l1 then dropLast3 l1 else l1
  else l

/-- The exact string handed to json.loads (line 880):
json.loads of cleaned.strip() where cleaned = fence-stripped raw.strip(). -/
def cleanSentiment (raw : String) : String :=
  String.mk (trim (stripFencesL (trim raw.data)))

/-- What the analysis tab shows: either the structured rendering of the
parsed data, or the warning plus the raw response text verbatim. -/
inductive AnalysisView (J : Type) where
  | structured (d : J)
  | rawFallback (warning : String) (raw : String)
deriving DecidableEq

/-- The warning shown when parsing fails (line 951). -/
def warnMsg : String :=
  "Could not parse sentiment analysis results as structured data."

/-- tab_analysis (lines 871-952) restricted to the sentiment slot: parse
the cleaned response; on success render the structured data, on a
parse failure (json.JSONDecodeError, and the KeyError/TypeError cases of
the rendering, all caught by the same handler) show the warning and the
raw st.session_state.sentiment_results text unchanged.  The JSON parser
is the collaborator library, abstracted as the parse argument. -/
def renderAnalysis {J : Type} (parse : String → Option J) (raw : String) :
    AnalysisView J :=
  match parse (cleanSentiment raw) with
  | some d => .structured d
  | none => .rawFallback warnMsg raw

-- ### Basic lemmas about the character-list utilities

theorem dropWhile_app (p : Char → Bool) (a b : List Char) :
    (a ++ b).dropWhile p =
      if a.dropWhile p = [] then b.dropWhile p else a.dropWhile p ++ b := by
  induction a with
  | nil => simp
  | cons c a ih =>
    by_cases h : p c
    · simpa [List.dropWhile, h] using ih
    · simp [List.dropWhile, h]

theorem dropWhile_idem (p : Char → Bool) (l : List Char) :
    (l.dropWhile p).dropWhile p = l.dropWhile p := by
  induction l with
  | nil => rfl
  | cons c cs ih =>
    by_cases h : p c
    · simpa [List.dropWhile, h] using ih
    · simp [List.dropWhile, h]

theorem trimL_idem (l : List Char) : trimL (trimL l) = trimL l :=
  dropWhile_idem wsChar l

theorem trimR_idem (l : List Char) : trimR (trimR l) = trimR l := by
  simp [trimR, dropWhile_idem]

theorem trimL_cons (c : Char) (l : List Char) (h : wsChar c = false) :
    trimL (c :: l) = c :: l := by
  simp [trimL, List.dropWhile, h]

theorem trimR_snoc (c : Char) (l : List Char) (h : wsChar c = false) :
    trimR (l ++ [c]) = l ++ [c] := by
  simp [trimR, List.dropWhile, h]

theorem trimR_snoc_ws (c : Char) (l : List Char) (h : wsChar c = true) :
    trimR (l ++ [c]) = trimR l := by
  simp [trimR, List.dropWhile, h]

theorem trim_snoc_ws (c : Char) (l : List Char) (h : wsChar c = true) :
    trim (l ++ [c]) = trim l := by
  simp [trim, trimR_snoc_ws c l h]

/-- If a list is fixed by trailing trim, so is its leading trim. -/
theorem trimR_trimL_fixed (y : List Char) (h : trimR y = y) :
    trimR (trimL y) = trimL y := by
  induction y with
  | nil => rfl
  | cons c cs ih =>
    by_cases hc : wsChar c
    · have h' : (cs.reverse ++ [c]).dropWhile wsChar = cs.reverse ++ [c] := by
        have := congrArg List.reverse h
        simpa [trimR] using this
      rw [dropWhile_app] at h'
      by_cases he : cs.reverse.dropWhile wsChar = []
      · rw [if_pos he] at h'
        simp [List.dropWhile, hc] at h'
      · rw [if_neg he] at h'
        have hcs : trimR cs = cs := by
          have : cs.reverse.dropWhile wsChar = cs.reverse :=
            List.append_cancel_right h'
          simp [trimR, this]
        have := ih hcs
        simpa [trimL, List.dropWhile, hc] using this
    · have : trimL (c :: cs) = c :: cs := trimL_cons c cs (by simpa using hc)
      rw [this]; exact h

theorem trim_idem (l : List Char) : trim (trim l) = trim l := by
  have h1 : trimR (trimR l) = trimR l := trimR_idem l
  have h2 : trimR (trimL (trimR l)) = trimL (trimR l) :=
    trimR_trimL_fixed (trimR l) h1
  simp [trim, h2, trimL_idem]

theorem strip_idem (s : String) : strip (strip s) = strip s := by
  simp [strip, trim_idem]

theorem hasNL_app (a b : List Char) : hasNL (a ++ '\n' :: b) = true := by
  induction a with
  | nil => simp [hasNL]
  | cons c cs ih =>
    by_cases h : c = '\n' <;> simp [hasNL, h, ih]

theorem afterNL_app (a b : List Char) (h : '\n' ∉ a) :
    afterNL (a ++ '\n' :: b) = b := by
  induction a with
  | nil => simp [afterNL]
  | cons c cs ih =>
    have hc : ¬ c = '\n' := fun hc => h (hc ▸ List.mem_cons_self c cs)
    have hcs : '\n' ∉ cs := fun hm => h (List.mem_cons_of_mem c hm)
    simp [afterNL, hc, ih hcs]

theorem data_append (a b : String) : (a ++ b).data = a.data ++ b.data := by
  cases a; cases b; rfl

-- ### Queue lemmas

/-- After any producer sequence, a queue that started within capacity
holds the suffix of (initial contents ++ pushes) that fits. -/
theorem pushAll_eq_drop {α : Type} (cap : Nat) (hcap : 0 < cap) :
    ∀ (cs q : List α), q.length ≤ cap →
      pushAll cap q cs = (q ++ cs).drop (q.length + cs.length - cap) := by
  intro cs
  induction cs with
  | nil =>
    intro q hq
    simp [pushAll, Nat.sub_eq_zero_of_le hq]
  | cons c cs ih =>
    intro q hq
    have hfold : pushAll cap q (c :: cs) = pushAll cap (push cap q c) cs := rfl
    by_cases h : cap ≤ q.length
    · have hlen : q.length = cap := le_antisymm hq h
      obtain ⟨a, q', rfl⟩ : ∃ a q', q = a :: q' := by
        cases q with
        | nil => rw [List.length_nil] at hlen; omega
        | cons a q' => exact ⟨a, q', rfl⟩
      rw [List.length_cons] at hlen
      have hpush : push cap (a :: q') c = q' ++ [c] := by
        simp only [push]
        rw [if_pos h, List.tail_cons]
      have hlen' : (q' ++ [c]).length ≤ cap := by
        simp only [List.length_append, List.length_cons, List.length_nil]
        omega
      rw [hfold, hpush, ih _ hlen']
      have e1 : (q' ++ [c]) ++ cs = q' ++ c :: cs := by simp
      have e2 : (a :: q') ++ c :: cs = a :: (q' ++ c :: cs) := rfl
      have e3 : (q' ++ [c]).length + cs.length - cap = cs.length := by
        simp only [List.length_append, List.length_cons, List.length_nil]
        omega
      have e4 : (a :: q').length + (c :: cs).length - cap = cs.length + 1 := by
        simp only [List.length_cons]
        omega
      rw [e1, e2, e3, e4, List.drop_succ_cons]
    · have hpush : push cap q c = q ++ [c] := by
        simp [push, h]
      have hlen' : (q ++ [c]).length ≤ cap := by
        simp only [List.length_append, List.length_cons, List.length_nil]
        omega
      rw [hfold, hpush, ih _ hlen']
      have e1 : (q ++ [c]) ++ cs = q ++ c :: cs := by simp
      have e3 : (q ++ [c]).length + cs.length - cap =
          q.length + (c :: cs).length - cap := by
        simp only [List.length_append, List.length_cons, List.length_nil]
        omega
      rw [e1, e3]

/-- Claim C1: chunks pass through the bounded queue without blocking the
producer (push is total), and once more than cap chunks have been pushed
the queue retains exactly the cap most-recently pushed chunks in FIFO
order: the result is the length-cap suffix of the push sequence. -/
theorem c1_bounded_queue_drop_oldest {α : Type} (cap : Nat) (cs : List α)
    (hcap : 0 < cap) (hover : cap < cs.length) :
    pushAll cap ([] : List α) cs = cs.drop (cs.length - cap) ∧
      (pushAll cap ([] : List α) cs).length = cap := by
  have h := pushAll_eq_drop cap hcap cs [] (by simp)
  simp only [List.nil_append, List.length_nil, Nat.zero_add] at h
  refine ⟨h, ?_⟩
  rw [h, List.length_drop]
  omega

/-- Witness for C1 at capacity 2 with three pushes. -/
theorem c1_bounded_queue_drop_oldest_witness :
    pushAll 2 ([] : List Nat) [0, 1, 2] =
        [0, 1, 2].drop ([0, 1, 2].length - 2) ∧
      (pushAll 2 ([] : List Nat) [0, 1, 2]).length = 2 :=
  c1_bounded_queue_drop_oldest 2 [0, 1, 2] (by decide) (by decide)

-- ### Chunk-size theorems

/-- Claim C4 counterexample: the chunk transmitted for one
onaudioprocess callback has the script-processor buffer length of 4096
samples, not the 800 samples the claim states. -/
theorem c4_chunk_size_counterexample :
    (onaudioprocessSend (fun (x : Int) => x)
        (List.replicate scriptProcessorBufferSize 0)).length ≠
      specCanonicalChunkSamples := by
  simp only [onaudioprocessSend, List.length_map, List.length_replicate,
    scriptProcessorBufferSize, specCanonicalChunkSamples]
  decide

/-- Claim C4 (amended): every PCM chunk transmitted outbound is exactly
one script-processor buffer of 4096 mono 16-bit samples (8192 bytes);
the canonical 800-sample / 1600-byte chunking is not performed in
src/main.py. -/
theorem c4_chunk_is_buffer_sized {α : Type} (conv : α → Int)
    (float32 : List α) (h : float32.length = scriptProcessorBufferSize) :
    (onaudioprocessSend conv float32).length = 4096 ∧
      int16Bytes (onaudioprocessSend conv float32) = 8192 := by
  simp [onaudioprocessSend, int16Bytes, h, scriptProcessorBufferSize]

/-- Witness for the amended C4 on a concrete full input buffer. -/
theorem c4_chunk_is_buffer_sized_witness :
    (onaudioprocessSend (fun (x : Int) => x)
        (List.replicate scriptProcessorBufferSize 0)).length = 4096 ∧
      int16Bytes (onaudioprocessSend (fun (x : Int) => x)
        (List.replicate scriptProcessorBufferSize 0)) = 8192 :=
  c4_chunk_is_buffer_sized _ _ (by simp)

-- ### Accumulator lemmas

theorem onMessage_turn_append (s : AccState) (text : String)
    (h : strip text ≠ "") :
    onMessage s (.turn true text) =
      { transcripts := s.transcripts ++
          [⟨strip text, getSpeaker s.transcripts.length⟩]
        currentPartial := ""
        totalWords := s.totalWords + wordCount (strip text) } := by
  simp [onMessage, h]

theorem onMessage_turn_partialSlot (s : AccState) (text : String)
    (h : strip text ≠ "") :
    onMessage s (.turn false text) = { s with currentPartial := strip text } := by
  simp [onMessage, h]

theorem onMessage_blank (s : AccState) (f : Bool) (text : String)
    (h : strip text = "") :
    onMessage s (.turn f text) = s := by
  simp [onMessage, h]

theorem onMessage_turn_append_transcripts (s : AccState) (text : String)
    (h : strip text ≠ "") :
    (onMessage s (.turn true text)).transcripts =
      s.transcripts ++ [⟨strip text, getSpeaker s.transcripts.length⟩] := by
  rw [onMessage_turn_append s text h]

theorem onMessage_turn_partial_transcripts (s : AccState) (text : String)
    (h : strip text ≠ "") :
    (onMessage s (.turn false text)).transcripts = s.transcripts := by
  rw [onMessage_turn_partialSlot s text h]

theorem get_append_one {β : Type} (l : List β) (x : β) (i : Nat)
    (hi : i < (l ++ [x]).length) :
    (l ++ [x]).get ⟨i, hi⟩ =
      if h : i < l.length then l.get ⟨i, h⟩ else x := by
  rw [List.get_eq_getElem]
  by_cases h : i < l.length
  · rw [dif_pos h, List.get_eq_getElem]
    exact List.getElem_append_left h
  · have hl : i = l.length := by
      simp only [List.length_append, List.length_cons, List.length_nil] at hi
      omega
    rw [dif_neg h]
    exact List.getElem_concat_length l x i hl _

/-- The parity-speaker invariant is preserved by any event sequence. -/
theorem speaker_parity_invariant (evs : List WsEvent) :
    ∀ (s : AccState),
      (∀ (i : Nat) (hi : i < s.transcripts.length),
        (s.transcripts.get ⟨i, hi⟩).speaker = getSpeaker i) →
      ∀ (i : Nat) (hi : i < (processEvents s evs).transcripts.length),
        ((processEvents s evs).transcripts.get ⟨i, hi⟩).speaker =
          getSpeaker i := by
  induction evs with
  | nil => intro s h; exact h
  | cons e evs ih =>
    intro s h
    have hstep : ∀ (i : Nat) (hi : i < (onMessage s e).transcripts.length),
        ((onMessage s e).transcripts.get ⟨i, hi⟩).speaker = getSpeaker i := by
      cases e with
      | termination => exact h
      | begin => exact h
      | turn f text =>
        by_cases hb : strip text = ""
        · rw [onMessage_blank s f text hb]
          exact h
        · cases f with
          | false =>
            rw [onMessage_turn_partial_transcripts s text hb]
            exact h
          | true =>
            rw [onMessage_turn_append_transcripts s text hb]
            intro i hi
            rw [get_append_one]
            by_cases hlt : i < s.transcripts.length
            · rw [dif_pos hlt]
              exact h i hlt
            · rw [dif_neg hlt]
              have hil : i = s.transcripts.length := by
                simp only [List.length_append, List.length_cons,
                  List.length_nil] at hi
                omega
              rw [hil]
    exact ih (onMessage s e) hstep

/-- Turns appended by any event sequence have non-empty, trimmed text. -/
theorem turns_trimmed_invariant (evs : List WsEvent) :
    ∀ (s : AccState),
      (∀ t ∈ s.transcripts, t.text ≠ "" ∧ strip t.text = t.text) →
      ∀ t ∈ (processEvents s evs).transcripts,
        t.text ≠ "" ∧ strip t.text = t.text := by
  induction evs with
  | nil => intro s h; exact h
  | cons e evs ih =>
    intro s h
    have hstep : ∀ t ∈ (onMessage s e).transcripts,
        t.text ≠ "" ∧ strip t.text = t.text := by
      cases e with
      | termination => exact h
      | begin => exact h
      | turn f text =>
        by_cases hb : strip text = ""
        · rw [onMessage_blank s f text hb]
          exact h
        · cases f with
          | false =>
            rw [onMessage_turn_partial_transcripts s text hb]
            exact h
          | true =>
            rw [onMessage_turn_append_transcripts s text hb]
            intro t ht
            rcases List.mem_append.mp ht with hmem | hmem
            · exact h t hmem
            · have : t = ⟨strip text, getSpeaker s.transcripts.length⟩ := by
                simpa using hmem
              rw [this]
              exact ⟨hb, strip_idem text⟩
    exact ih (onMessage s e) hstep

-- ### Claim theorems for the accumulator

/-- Claim C2: a formatted turn event with non-empty text appends a Turn
with the speaker taken from the ordinal (the current transcripts length)
and clears the pending partial; a non-final event with non-empty text
replaces the single pending-partial slot; and the given three-event
scenario yields exactly the two turns Doctor "hello doctor" /
Patient "I have a cough" with an empty pending partial. -/
theorem c2_onmessage_event_handling :
    (∀ (s : AccState) (text : String), strip text ≠ "" →
        onMessage s (.turn true text) =
          { transcripts := s.transcripts ++
              [⟨strip text, getSpeaker s.transcripts.length⟩]
            currentPartial := ""
            totalWords := s.totalWords + wordCount (strip text) } ∧
        onMessage s (.turn false text) =
          { s with currentPartial := strip text }) ∧
      processEvents initAcc
          [.turn false "hi", .turn true "hello doctor",
           .turn true "I have a cough"] =
        ⟨[⟨"hello doctor", "Doctor"⟩, ⟨"I have a cough", "Patient"⟩],
          "", 6⟩ := by
  refine ⟨fun s text h =>
    ⟨onMessage_turn_append s text h, onMessage_turn_partialSlot s text h⟩, ?_⟩
  decide

/-- Witness for C2 on a concrete state and event. -/
theorem c2_onmessage_event_handling_witness :
    onMessage initAcc (.turn true " hi there ") =
      { transcripts := initAcc.transcripts ++
          [⟨strip " hi there ", getSpeaker initAcc.transcripts.length⟩]
        currentPartial := ""
        totalWords := initAcc.totalWords + wordCount (strip " hi there ") } :=
  (c2_onmessage_event_handling.1 initAcc " hi there " (by decide)).1

/-- Claim C3: over every inbound event sequence, the turn at ordinal i
carries the primary speaker "Doctor" exactly when i is even and the
secondary speaker "Patient" otherwise, independent of any other event
property. -/
theorem c3_speaker_alternation (evs : List WsEvent) (i : Nat)
    (hi : i < (processEvents initAcc evs).transcripts.length) :
    ((processEvents initAcc evs).transcripts.get ⟨i, hi⟩).speaker =
      (if i % 2 = 0 then "Doctor" else "Patient") := by
  have h := speaker_parity_invariant evs initAcc
    (fun i hi => absurd hi (Nat.not_lt_zero i)) i hi
  rw [h]
  rfl

/-- Witness for C3 at ordinal 1 of a concrete session. -/
theorem c3_speaker_alternation_witness :
    ((processEvents initAcc [.turn true "a", .turn true "b"]).transcripts.get
        ⟨1, by decide⟩).speaker = (if 1 % 2 = 0 then "Doctor" else "Patient") :=
  c3_speaker_alternation [.turn true "a", .turn true "b"] 1 (by decide)

/-- Claim C9: a turn event whose text trims to empty leaves the
accumulator entirely unchanged, even when the formatted flag is set (in
particular the pending partial is not cleared); consequently every
appended Turn carries non-empty, trimmed text. -/
theorem c9_blank_events_ignored :
    (∀ (s : AccState) (turn_is_formatted : Bool) (text : String),
        strip text = "" →
        onMessage s (.turn turn_is_formatted text) = s) ∧
      ∀ (evs : List WsEvent) (t : Turn),
        t ∈ (processEvents initAcc evs).transcripts →
        t.text ≠ "" ∧ strip t.text = t.text := by
  refine ⟨fun s f text h => onMessage_blank s f text h, ?_⟩
  intro evs t ht
  exact turns_trimmed_invariant evs initAcc (fun t ht => absurd ht
    (List.not_mem_nil t)) t ht

/-- Witness for C9: a whitespace-only formatted event on a state with a
live partial changes nothing, and a concrete appended turn is trimmed. -/
theorem c9_blank_events_ignored_witness :
    onMessage ⟨[], "pending", 0⟩ (.turn true "   ") = ⟨[], "pending", 0⟩ ∧
      (⟨"hi", "Doctor"⟩ : Turn).text ≠ "" ∧
        strip (⟨"hi", "Doctor"⟩ : Turn).text = (⟨"hi", "Doctor"⟩ : Turn).text :=
  ⟨c9_blank_events_ignored.1 ⟨[], "pending", 0⟩ true "   " (by decide),
    c9_blank_events_ignored.2 [.turn true "hi"] ⟨"hi", "Doctor"⟩ (by decide)⟩

-- ### Enrichment theorems

/-- Claim C5: the three enrichment slots are independent: each slot of
the SessionResult depends only on its own call outcome, a failed call
fills its slot with that task's error placeholder while the other slots
carry their results, and in the given scenario (redaction fails, the
other two succeed) the note and sentiment slots are populated and the
redaction slot holds the placeholder. -/
theorem c5_enrichment_independent :
    (∀ (a b c b' c' : Except String String),
        (runEnrichment a b c).soap_note = (runEnrichment a b' c').soap_note) ∧
      (∀ (a a' b c c' : Except String String),
        (runEnrichment a b c).redacted_transcript =
          (runEnrichment a' b c').redacted_transcript) ∧
      (∀ (a a' b b' c : Except String String),
        (runEnrichment a b c).sentiment_results =
          (runEnrichment a' b' c).sentiment_results) ∧
      (∀ (e : String) (b c : Except String String),
        (runEnrichment (.error e) b c).soap_note = soapErrText e) ∧
      (∀ (e : String) (a c : Except String String),
        (runEnrichment a (.error e) c).redacted_transcript = redactErrText e) ∧
      (∀ (e : String) (a b : Except String String),
        (runEnrichment a b (.error e)).sentiment_results = sentimentErrJson e) ∧
      ∀ (note sent e : String),
        runEnrichment (.ok note) (.error e) (.ok sent) =
          ⟨note, redactErrText e, sent⟩ :=
 by
  refine ⟨?_, ?_, ?_, ?_, ?_, ?_, ?_⟩ <;> intros <;> rfl

/-- Claim C6: when parsing the cleaned sentiment response fails, the
analysis tab renders the distinct warning together with the raw response
text verbatim; the raw text is preserved, not discarded. -/
theorem c6_sentiment_parse_failure_preserves_raw {J : Type}
    (parse : String → Option J) (raw : String)
    (h : parse (cleanSentiment raw) = none) :
    renderAnalysis parse raw = .rawFallback warnMsg raw := by
  simp [renderAnalysis, h]

/-- Witness for C6 with a parser that rejects everything. -/
theorem c6_sentiment_parse_failure_preserves_raw_witness :
    renderAnalysis (fun _ => (none : Option Nat)) "not json" =
      .rawFallback warnMsg "not json" :=
  c6_sentiment_parse_failure_preserves_raw (fun _ => none) "not json" rfl

-- ### Teardown theorems

/-- The transcript exported by stopRecording, in closed form. -/
theorem stopRecording_hiddenTranscript (s : AppState) :
    (stopRecording s).hiddenTranscript =
      if s.acc.transcripts = [] then s.hiddenTranscript
      else buildTranscriptText s.acc.transcripts := by
  obtain ⟨pn, sn, ac, ms, w, t, acc, hid⟩ := s
  rcases w with _ | b
  · by_cases h : acc.transcripts = [] <;>
      simp [stopRecording, onEncounterStopped, onEncounterComplete, h]
  · cases b <;> by_cases h : acc.transcripts = [] <;>
      simp [stopRecording, onEncounterStopped, onEncounterComplete, h]

/-- Claim C7: session close is idempotent: closing with no session open
(no socket, no media resources, no timer, nothing accumulated) changes
nothing, and a second close after any close changes nothing further; the
model is total, so no step raises. -/
theorem c7_close_idempotent :
    (∀ (s : AppState), s.ws = none → s.processorNode = false →
        s.sourceNode = false → s.audioContextOpen = false →
        s.mediaStreamActive = false → s.timerOn = false →
        s.acc.transcripts = [] → stopRecording s = s) ∧
      ∀ (s : AppState), stopRecording (stopRecording s) = stopRecording s := by
  constructor
  · rintro ⟨pn, sn, ac, ms, w, t, acc, hid⟩ h1 h2 h3 h4 h5 h6 h7
    simp only at h1 h2 h3 h4 h5 h6 h7
    subst h1; subst h2; subst h3; subst h4; subst h5; subst h6
    simp [stopRecording, onEncounterStopped, h7]
  · rintro ⟨pn, sn, ac, ms, w, t, acc, hid⟩
    rcases w with _ | b
    · by_cases h : acc.transcripts = [] <;>
        simp [stopRecording, onEncounterStopped, onEncounterComplete, h]
    · cases b <;> by_cases h : acc.transcripts = [] <;>
        simp [stopRecording, onEncounterStopped, onEncounterComplete, h]

/-- Witness for C7: closing the fresh page state is a no-op. -/
theorem c7_close_idempotent_witness :
    stopRecording initialState = initialState :=
  c7_close_idempotent.1 initialState rfl rfl rfl rfl rfl rfl rfl

/-- Claim C8: the pending partial never reaches the durable transcript:
the text exported at session end is unchanged under any value of the
pending-partial slot, and when turns exist it is exactly
buildTranscriptText of the appended Turns alone. -/
theorem c8_partial_never_exported (s : AppState) (p : String) :
    (stopRecording
        { s with acc := { s.acc with currentPartial := p } }).hiddenTranscript =
        (stopRecording s).hiddenTranscript ∧
      (s.acc.transcripts ≠ [] →
        (stopRecording s).hiddenTranscript =
          buildTranscriptText s.acc.transcripts) := by
  rw [stopRecording_hiddenTranscript, stopRecording_hiddenTranscript]
  constructor
  · rfl
  · intro h
    rw [if_neg h]

/-- Witness for C8 on a one-turn session state. -/
theorem c8_partial_never_exported_witness :
    (stopRecording
        ⟨false, false, false, false, none, false,
          ⟨[⟨"hi", "Doctor"⟩], "", 1⟩, ""⟩).hiddenTranscript =
      buildTranscriptText [⟨"hi", "Doctor"⟩] :=
  (c8_partial_never_exported
      ⟨false, false, false, false, none, false,
        ⟨[⟨"hi", "Doctor"⟩], "", 1⟩, ""⟩ "speaking").2 (by decide)

-- ### Fence-stripping lemmas and claim C10

theorem endsWithTicks_app (x : List Char) :
    endsWithTicks (x ++ ['\n', '`', '`', '`']) = true := by
  unfold endsWithTicks
  rw [List.reverse_append]
  rfl

theorem dropLast3_app (x : List Char) :
    dropLast3 (x ++ ['\n', '`', '`', '`']) = x ++ ['\n'] := by
  unfold dropLast3
  rw [List.reverse_append]
  rw [show List.reverse ['\n', '`', '`', '`'] = ['`', '`', '`', '\n'] from rfl]
  rw [show (['`', '`', '`', '\n'] ++ x.reverse).drop 3 = '\n' :: x.reverse
    from rfl]
  rw [List.reverse_cons, List.reverse_reverse]

theorem trim_tick_wrap (m : List Char) :
    trim ('`' :: (m ++ ['`'])) = '`' :: (m ++ ['`']) := by
  have h1 : trimR ('`' :: (m ++ ['`'])) = '`' :: (m ++ ['`']) :=
    trimR_snoc '`' ('`' :: m) (by decide)
  have h2 : trimL ('`' :: (m ++ ['`'])) = '`' :: (m ++ ['`']) :=
    trimL_cons '`' (m ++ ['`']) (by decide)
  unfold trim
  rw [h1, h2]

/-- An unfenced response passes the fence stripper unchanged. -/
theorem stripFencesL_fixed (B : List Char)
    (hB : startsWithTicks (trim B) = false) :
    trim (stripFencesL (trim B)) = trim B := by
  rw [show stripFencesL (trim B) = trim B from by simp [stripFencesL, hB]]
  exact trim_idem B

/-- A fenced response is reduced to its body by the fence stripper. -/
theorem stripFences_fenced (A B : List Char) (hA : '\n' ∉ A) :
    trim (stripFencesL (trim
        ('`' :: '`' :: '`' :: (A ++ '\n' :: (B ++ ['\n', '`', '`', '`']))))) =
      trim B := by
  have h1 : trim
      ('`' :: '`' :: '`' :: (A ++ '\n' :: (B ++ ['\n', '`', '`', '`']))) =
      '`' :: '`' :: '`' :: (A ++ '\n' :: (B ++ ['\n', '`', '`', '`'])) := by
    have ht := trim_tick_wrap ('`' :: '`' :: (A ++ '\n' :: (B ++ ['\n', '`', '`'])))
    have hsh : ('`' : Char) ::
        (('`' :: '`' :: (A ++ '\n' :: (B ++ ['\n', '`', '`']))) ++ ['`']) =
        '`' :: '`' :: '`' :: (A ++ '\n' :: (B ++ ['\n', '`', '`', '`'])) := by
      simp
    rwa [hsh] at ht
  rw [h1]
  have hsh2 : ('`' : Char) :: '`' :: '`' ::
      (A ++ '\n' :: (B ++ ['\n', '`', '`', '`'])) =
      ('`' :: '`' :: '`' :: A) ++ '\n' :: (B ++ ['\n', '`', '`', '`']) := by
    simp
  have hA' : '\n' ∉ ('`' :: '`' :: '`' :: A) := by
    intro hm
    rw [show ('`' :: '`' :: '`' :: A) = ['`', '`', '`'] ++ A from rfl] at hm
    rcases List.mem_append.mp hm with h | h
    · exact absurd h (by decide)
    · exact hA h
  have hstart : startsWithTicks
      ('`' :: '`' :: '`' :: (A ++ '\n' :: (B ++ ['\n', '`', '`', '`']))) =
      true := rfl
  have hNL : hasNL
      ('`' :: '`' :: '`' :: (A ++ '\n' :: (B ++ ['\n', '`', '`', '`']))) =
      true := by
    rw [hsh2]
    exact hasNL_app _ _
  have hafter : afterNL
      ('`' :: '`' :: '`' :: (A ++ '\n' :: (B ++ ['\n', '`', '`', '`']))) =
      B ++ ['\n', '`', '`', '`'] := by
    rw [hsh2]
    exact afterNL_app _ _ hA'
  have hend : endsWithTicks (B ++ ['\n', '`', '`', '`']) = true :=
    endsWithTicks_app B
  have hdrop : dropLast3 (B ++ ['\n', '`', '`', '`']) = B ++ ['\n'] :=
    dropLast3_app B
  rw [show stripFencesL
      ('`' :: '`' :: '`' :: (A ++ '\n' :: (B ++ ['\n', '`', '`', '`']))) =
      B ++ ['\n'] from by
    simp only [stripFencesL, hstart, hNL, hafter, hend, hdrop, if_true]]
  exact trim_snoc_ws '\n' B (by decide)

/-- Claim C10: a response that is the JSON body wrapped in leading and
trailing triple-backtick fences (with an arbitrary newline-free language
tag on the first line, possibly empty) is cleaned to exactly the same
string that the unfenced body is cleaned to, so parsing sees identical
input and produces the identical structured result. -/
theorem c10_sentiment_fence_stripping (tag j : String)
    (htag : '\n' ∉ tag.data)
    (hj : startsWithTicks (trim j.data) = false) :
    cleanSentiment ("```" ++ tag ++ "\n" ++ j ++ "\n```") = cleanSentiment j ∧
      ∀ (J : Type) (parse : String → Option J),
        parse (cleanSentiment ("```" ++ tag ++ "\n" ++ j ++ "\n```")) =
          parse (cleanSentiment j) := by
  have hdata : ("```" ++ tag ++ "\n" ++ j ++ "\n```").data =
      '`' :: '`' :: '`' ::
        (tag.data ++ '\n' :: (j.data ++ ['\n', '`', '`', '`'])) := by
    rw [data_append, data_append, data_append, data_append]
    rw [show ("```" : String).data = ['`', '`', '`'] from rfl,
        show ("\n" : String).data = ['\n'] from rfl,
        show ("\n```" : String).data = ['\n', '`', '`', '`'] from rfl]
    simp
  have heq : cleanSentiment ("```" ++ tag ++ "\n" ++ j ++ "\n```") =
      cleanSentiment j := by
    unfold cleanSentiment
    rw [hdata, stripFences_fenced tag.data j.data htag,
      stripFencesL_fixed j.data hj]
  exact ⟨heq, fun J parse => by rw [heq]⟩

/-- Witness for C10 on a concrete fenced JSON response. -/
theorem c10_sentiment_fence_stripping_witness :
    cleanSentiment ("```" ++ "json" ++ "\n" ++ "[1, 2]" ++ "\n```") =
      cleanSentiment "[1, 2]" :=
  (c10_sentiment_fence_stripping "json" "[1, 2]" (by decide) (by decide)).1
